import Mathlib

/-!
Verification of the form rendering/state engine of the form-builder repository.

The development shallowly embeds the JavaScript source:
* `src/schemaUtils.js` (schema query utilities, visibility evaluator),
* `src/formBuilderBase.js` (`FormBuilderBase`: pruning, submission payload,
  stage navigation, debounce timer bookkeeping, summary-value formatting),
* `formPreview.js` (`FormPreview.loadSchema`).

JavaScript runtime values occurring in form state, schema `equals` conditions
and option values are strings, booleans, numbers (integers in this code base;
no NaN arises), `null` and `undefined`; they are modelled by `JSValue`.
Objects used as string-keyed maps (form state, the timer map, the payload)
are modelled by association lists whose lookup takes the first matching key
and whose erase removes every entry of that key (keys stay unique under the
provided update operations, mirroring a JS object).
-/

namespace FormBuilder

/-- Model of the JavaScript primitive values stored in form state / schemas. -/
inductive JSValue where
  | undefined : JSValue
  | null : JSValue
  | bool (b : Bool) : JSValue
  | str (s : String) : JSValue
  | num (n : Int) : JSValue
deriving DecidableEq, Repr

/-- JavaScript strict equality `===` on the modelled values: equal only when
the type tag and the payload agree (no coercion). -/
def strictEq : JSValue → JSValue → Bool
  | .undefined, .undefined => true
  | .null, .null => true
  | .bool a, .bool b => a == b
  | .str a, .str b => a == b
  | .num a, .num b => a == b
  | _, _ => false

/-- JavaScript truthiness of a modelled value. -/
def truthy : JSValue → Bool
  | .undefined => false
  | .null => false
  | .bool b => b
  | .str s => !(s == "")
  | .num n => !(n == 0)

/-- `value === undefined || value === null`. -/
def isNullish : JSValue → Bool
  | .undefined => true
  | .null => true
  | _ => false

/-- The emptiness test of `formatFieldValue`:
`value === undefined || value === null || value === ""`. -/
def isEmptyValue (v : JSValue) : Bool :=
  isNullish v || strictEq v (.str "")

/-- JavaScript `String(value)` on the modelled values. -/
def jsToString : JSValue → String
  | .undefined => "undefined"
  | .null => "null"
  | .bool true => "true"
  | .bool false => "false"
  | .str s => s
  | .num n => toString n

-- Association lists standing for JS objects / Maps keyed by strings or numbers.

/-- First-match lookup in an association list (JS property read, `Map.get`). -/
def alookup {α β : Type} [DecidableEq α] : List (α × β) → α → Option β
  | [], _ => none
  | (k', v) :: rest, k => if k' = k then some v else alookup rest k

/-- Remove every entry of a key (JS `delete obj[k]` / `Map.delete`). -/
def aerase {α β : Type} [DecidableEq α] : List (α × β) → α → List (α × β)
  | [], _ => []
  | (k', v) :: rest, k => if k' = k then aerase rest k else (k', v) :: aerase rest k

/-- Write a key (JS `obj[k] = v` / `Map.set`). -/
def aset {α β : Type} [DecidableEq α] (l : List (α × β)) (k : α) (v : β) : List (α × β) :=
  (k, v) :: aerase l k

/-- The engine's form state: a flat map from field name to current value.
An absent key means the object has no own property of that name. -/
def FormState : Type := List (String × JSValue)

instance : DecidableEq FormState := by
  unfold FormState
  infer_instance

instance : Repr FormState := by
  unfold FormState
  infer_instance

/-- `state[k]` as a property read (`hasOwnProperty` is `(alookup st k).isSome`). -/
def lookupState (st : FormState) (k : String) : Option JSValue :=
  alookup st k

/-- `state[k]` as the JS expression: `undefined` when the key is absent. -/
def getJS (st : FormState) (k : String) : JSValue :=
  (lookupState st k).getD .undefined

-- Schema data model (§3 of the source's schema shape).

/-- A `showIf: { field, equals }` condition. -/
structure Condition where
  field : String
  equals : JSValue
deriving DecidableEq, Repr

/-- One entry of a field's `options` array: a bare string, or an object
`{ value, label? }`. -/
inductive FieldOption where
  | ostr (s : String) : FieldOption
  | oobj (value : JSValue) (label : Option String) : FieldOption
deriving DecidableEq, Repr

/-- The value of an option entry (`typeof option === "string" ? option : option.value`). -/
def optionValue : FieldOption → JSValue
  | .ostr s => .str s
  | .oobj v _ => v

/-- A schema field; only the properties the verified code reads are modelled. -/
structure Field where
  name : String
  type : String
  label : Option String := none
  options : Option (List FieldOption) := none
  showIf : Option Condition := none
deriving DecidableEq, Repr

/-- A stage `{ label, type?, optional?, fields[] }`. `optional` is read through
`Boolean(...)` in the source, hence a `Bool` here. -/
structure Stage where
  label : Option String := none
  type : Option String := none
  optional : Bool := false
  fields : List Field := []
deriving DecidableEq, Repr

/-- A schema `{ stages[] }` or legacy `{ fields[] }`; `none` models an absent
(`undefined`) property. -/
structure Schema where
  fields : Option (List Field) := none
  stages : Option (List Stage) := none
deriving DecidableEq, Repr

/-- JS array indexing `arr[i]` with an arbitrary integer index: out of range
(including negative) yields `undefined`, modelled as `none`. -/
def listGetInt {α : Type} (l : List α) (i : Int) : Option α :=
  if 0 ≤ i then l.get? i.toNat else none

-- schemaUtils.js

/-- `isMultiStage(schema)`: `Array.isArray(schema.stages) && schema.stages.length > 0`. -/
def isMultiStage (s : Schema) : Bool :=
  match s.stages with
  | some l => decide (0 < l.length)
  | none => false

/-- `getStageCount(schema)`. -/
def getStageCount (s : Schema) : Nat :=
  if isMultiStage s then (s.stages.getD []).length else 1

/-- `getFields(schema, stageIndex = null)`; `stageIndex = some i` models a
numeric argument, `none` the defaulted `null`.
`schema.stages[stageIndex]?.fields ?? []` and
`schema.fields ?? schema.stages.flatMap(stage => stage.fields)`. -/
def getFields (s : Schema) (stageIndex : Option Int) : List Field :=
  if isMultiStage s then
    match stageIndex with
    | some i =>
      match listGetInt (s.stages.getD []) i with
      | some stage => stage.fields
      | none => []
    | none =>
      match s.fields with
      | some fl => fl
      | none => (s.stages.getD []).flatMap (·.fields)
  else
    s.fields.getD []

/-- `evaluateCondition(condition, state)`: `state[condition.field] === condition.equals`. -/
def evaluateCondition (c : Condition) (st : FormState) : Bool :=
  strictEq (getJS st c.field) c.equals

/-- `shouldDisplayField(field, state)`: true when there is no `showIf`,
else the condition's strict-equality result. -/
def shouldDisplayField (f : Field) (st : FormState) : Bool :=
  match f.showIf with
  | none => true
  | some c => evaluateCondition c st

/-- `isPlainTextField(field)`. -/
def isPlainTextField (f : Field) : Bool :=
  let t := f.type.toLower
  t == "plain text" || t == "plaintext"

/-- `getVisibleFields(schema, state, stageIndex = null)`. -/
def getVisibleFields (s : Schema) (st : FormState) (stageIndex : Option Int) : List Field :=
  ((getFields s stageIndex).filter (fun f => !isPlainTextField f)).filter
    (fun f => shouldDisplayField f st)

-- formBuilderBase.js — pure helpers

/-- `resolveOptionLabel(field, value)`: the label of the first option whose
value is `===` the stored value, an option's `label ?? value` for object
options, and the raw value when there is no options array or no match. -/
def resolveOptionLabel (f : Field) (value : JSValue) : JSValue :=
  match f.options with
  | none => value
  | some opts =>
    match opts.find? (fun o => strictEq (optionValue o) value) with
    | none => value
    | some (.ostr s) => .str s
    | some (.oobj v lbl) =>
      match lbl with
      | some s => .str s
      | none => v

/-- `formatFieldValue(field, value)` — the summary-stage value formatter.
`emptyValue` is the em-dash `"—"`; the yes/no tokens are the localized
`"כן"`/`"לא"` literals of the source. -/
def formatFieldValue (f : Field) (value : JSValue) : JSValue :=
  if f.type == "checkbox" then
    if isEmptyValue value then .str "—"
    else if truthy value then .str "כן" else .str "לא"
  else if isEmptyValue value then .str "—"
  else if f.type == "select" || f.type == "radio" then
    let lbl := resolveOptionLabel f value
    if isNullish lbl then .str "—" else lbl
  else .str (jsToString value)

-- FormBuilderBase — field state helpers

/-- One iteration of the `_pruneHiddenFields` loop: a field that has a
`showIf`, still has an own entry in the state, and whose condition evaluates
false against the state *as it is at this iteration* is deleted. -/
def pruneStep (st : FormState) (f : Field) : FormState :=
  if f.showIf.isSome && (alookup st f.name).isSome then
    if !shouldDisplayField f st then aerase st f.name else st
  else st

/-- `_pruneHiddenFields()`: a single in-order pass over the schema's flattened
field list, deleting as it goes (the source mutates `this.state` in place
inside `forEach`, so later iterations see earlier deletions). -/
def pruneHiddenFields (s : Schema) (st : FormState) : FormState :=
  (getFields s none).foldl pruneStep st

/-- One iteration of the `_buildSubmissionPayload` loop:
`payload[field.name] = state[field.name]` when the state has an own entry. -/
def payloadStep (st p : FormState) (f : Field) : FormState :=
  if (alookup st f.name).isSome then aset p f.name (getJS st f.name) else p

/-- `_buildSubmissionPayload()`: `payload[field.name] = state[field.name]`
for every currently visible field that has an own entry in the state. -/
def buildSubmissionPayload (s : Schema) (st : FormState) : FormState :=
  (getVisibleFields s st none).foldl (payloadStep st) []

-- FormBuilderBase — stage helpers (indices are JS numbers, modelled as Int;
-- `findIndex` yields -1 when nothing matches)

/-- `_getSummaryStageIndex()`. -/
def getSummaryStageIndex (s : Schema) : Int :=
  if isMultiStage s then
    match (s.stages.getD []).findIdx? (fun st => st.type == some "summary") with
    | some n => (n : Int)
    | none => -1
  else -1

/-- `_isSummaryStage(stageIndex)`. -/
def isSummaryStage (s : Schema) (stageIndex : Int) : Bool :=
  let summaryIndex := getSummaryStageIndex s
  summaryIndex != -1 && summaryIndex == stageIndex

/-- `_isOptionalSummaryStage()`: `Boolean(stages[summaryIndex]?.optional)`. -/
def isOptionalSummaryStage (s : Schema) : Bool :=
  let summaryIndex := getSummaryStageIndex s
  if summaryIndex == -1 then false
  else
    match listGetInt (s.stages.getD []) summaryIndex with
    | some stage => stage.optional
    | none => false

/-- `_getLastDataStageIndex()`. -/
def getLastDataStageIndex (s : Schema) : Int :=
  if !isMultiStage s then 0
  else
    let summaryIndex := getSummaryStageIndex s
    if summaryIndex == -1 then (getStageCount s : Int) - 1
    else max (summaryIndex - 1) 0

-- Engine state: the instance fields of FormBuilderBase that the verified
-- behaviour touches. Debounce timers are modelled by the `pendingRenderTimers`
-- map (field name ↦ timer id) together with the multiset of timers that have
-- been created by `setTimeout` and neither cleared nor fired (`liveTimers`,
-- tagged with the owning field name). `nextTimerId` models the host's fresh
-- timer-id supply (browser ids are nonzero, so `if (timerId)` in the source
-- is a presence test).

structure EngineState where
  state : FormState
  currentStage : Int
  furthestStageReached : Int
  pendingRenderTimers : List (String × Nat)
  liveTimers : List (Nat × String)
  nextTimerId : Nat
deriving DecidableEq, Repr

/-- The freshly constructed instance state (constructor of `FormBuilderBase`). -/
def initialEngineState : EngineState :=
  { state := []
    currentStage := 0
    furthestStageReached := 0
    pendingRenderTimers := []
    liveTimers := []
    nextTimerId := 1 }

/-- `_clearPendingRender(fieldName)`: look the field up in the timer map;
when present, `clearTimeout` the handle and drop the map entry. -/
def clearPendingRender (fieldName : String) (es : EngineState) : EngineState :=
  match alookup es.pendingRenderTimers fieldName with
  | some timerId =>
    { es with
      pendingRenderTimers := aerase es.pendingRenderTimers fieldName
      liveTimers := es.liveTimers.filter (fun p => p.1 ≠ timerId) }
  | none => es

/-- `_scheduleRender(stageIndex, fieldName, ...)`: cancel the field's pending
timer, then `setTimeout` a fresh one and record it in the map. (The rendering
the timer performs when it fires is `fireTimer`.) -/
def scheduleRender (fieldName : String) (es : EngineState) : EngineState :=
  let es1 := clearPendingRender fieldName es
  { es1 with
    pendingRenderTimers := aset es1.pendingRenderTimers fieldName es1.nextTimerId
    liveTimers := (es1.nextTimerId, fieldName) :: es1.liveTimers
    nextTimerId := es1.nextTimerId + 1 }

/-- The navigation/state part of `_renderStage(stageIndex, options)` for a
loaded schema: prune hidden fields, then clamp and store the stage index,
advance `furthestStageReached`, and auto-unlock an optional summary stage
when the last data stage is reached. A non-numeric `stageIndex` argument
falls back to 0 in the source before this point, so the target is an `Int`. -/
def renderStage (s : Schema) (targetIndex : Int) (es : EngineState) : EngineState :=
  let st := pruneHiddenFields s es.state
  if !isMultiStage s then
    { es with state := st, currentStage := 0 }
  else
    let lastIndex : Int := (getStageCount s : Int) - 1
    let cur := min (max targetIndex 0) lastIndex
    let fur := max es.furthestStageReached cur
    let fur :=
      if isOptionalSummaryStage s && cur == getLastDataStageIndex s then
        max fur (min (cur + 1) lastIndex)
      else fur
    { es with state := st, currentStage := cur, furthestStageReached := fur }

/-- The callback body of the `setTimeout` in `_scheduleRender`, run when a
still-live timer `(timerId, fieldName)` fires: it deletes its own map entry
and renders the stage index captured at scheduling time. Firing consumes the
timer, so it also leaves `liveTimers`. -/
def fireTimer (s : Schema) (timerId : Nat) (fieldName : String) (capturedStage : Int)
    (es : EngineState) : EngineState :=
  let es1 :=
    { es with
      liveTimers := es.liveTimers.filter (fun p => p.1 ≠ timerId)
      pendingRenderTimers := aerase es.pendingRenderTimers fieldName }
  renderStage s capturedStage es1

/-- `_handleFieldChange(stageIndex, fieldName, value)`: cancel the field's
pending debounced render, write the value, prune, and re-render immediately
(at the handler's stage index when numeric, else the current stage; for a
single-stage schema `_renderStage` ignores the target). -/
def handleFieldChange (s : Schema) (stageIndex : Option Int) (fieldName : String)
    (value : JSValue) (es : EngineState) : EngineState :=
  let es1 := clearPendingRender fieldName es
  let es2 := { es1 with state := aset es1.state fieldName value }
  let es3 := { es2 with state := pruneHiddenFields s es2.state }
  renderStage s (stageIndex.getD es3.currentStage) es3

/-- `_handleFieldInput(stageIndex, fieldName, value)`: write the value, prune,
and schedule a debounced render. -/
def handleFieldInput (s : Schema) (fieldName : String) (value : JSValue)
    (es : EngineState) : EngineState :=
  let es1 := { es with state := aset es.state fieldName value }
  let es2 := { es1 with state := pruneHiddenFields s es1.state }
  scheduleRender fieldName es2

/-- `_resetForm()`: empty the state map, reset navigation to `(0, 0)`, then
`_renderStage(0, ...)`. Pending debounce timers are not touched. -/
def resetForm (s : Schema) (es : EngineState) : EngineState :=
  renderStage s 0 { es with state := [], currentStage := 0, furthestStageReached := 0 }

/-- `FormPreview.loadSchema(schema)`: `none` models the
`_displaySchemaError` path for a falsy `schema.stages` (errors leave every
instance field unchanged); otherwise the schema is installed, the state map
is emptied, navigation is reset and stage 0 is rendered. Pending debounce
timers are not touched. -/
def loadSchema (s : Schema) (es : EngineState) : Option EngineState :=
  if s.stages = none then none
  else some (renderStage s 0 { es with state := [], currentStage := 0, furthestStageReached := 0 })

-- FormBuilderBase — navigation controls

/-- Visibility of the previous/next/submit buttons after
`_updateNavigationControls(stageIndex)` (`true` = `"inline-block"`,
`false` = `"none"`). -/
structure NavDisplay where
  prev : Bool
  next : Bool
  submit : Bool
deriving DecidableEq, Repr

/-- `_updateNavigationControls(stageIndex)`. -/
def updateNavigationControls (s : Schema) (stageIndex : Int) : NavDisplay :=
  if !isMultiStage s then
    { prev := false, next := false, submit := true }
  else
    let summaryIndex := getSummaryStageIndex s
    let hasSummary := summaryIndex != -1
    let isSummary := hasSummary && stageIndex == summaryIndex
    let lastStageIndex : Int := (getStageCount s : Int) - 1
    let lastDataStageIndex := getLastDataStageIndex s
    let prevShown := !(stageIndex == 0)
    if isSummary then
      { prev := prevShown, next := false, submit := true }
    else if hasSummary && stageIndex == lastDataStageIndex then
      { prev := prevShown, next := true, submit := isOptionalSummaryStage s }
    else
      { prev := prevShown
        next := !(decide (stageIndex ≥ lastStageIndex))
        submit := stageIndex == lastStageIndex }

-- Properties used by the claims (predicates and spec-facing definitions)

/-- Ordering discipline on a field list: no conditional field names itself as
its controller, and every field carrying the controller's name occurs strictly
before the dependent field. -/
def ControllersFirst (l : List Field) : Prop :=
  (∀ f ∈ l, ∀ c, f.showIf = some c → f.name ≠ c.field) ∧
  l.Pairwise (fun a b => ∀ c, a.showIf = some c → b.name ≠ c.field)

instance (l : List Field) : Decidable (ControllersFirst l) := by
  unfold ControllersFirst
  infer_instance

/-- The navigation-state invariant of the spec:
`furthestStageReached ≥ currentStage` and `currentStage ∈ [0, stageCount-1]`. -/
def NavInv (s : Schema) (es : EngineState) : Prop :=
  es.currentStage ≤ es.furthestStageReached ∧
  0 ≤ es.currentStage ∧
  es.currentStage ≤ (getStageCount s : Int) - 1

instance (s : Schema) (es : EngineState) : Decidable (NavInv s es) := by
  unfold NavInv
  infer_instance

/-- Consistency of the debounce bookkeeping: the timer map has one entry per
field, live (scheduled, neither cleared nor fired) timers and map entries are
in bijection, timer ids are unique, and ids come from the fresh supply. -/
def TimerInv (es : EngineState) : Prop :=
  (es.pendingRenderTimers.map Prod.fst).Nodup ∧
  (es.liveTimers.map Prod.fst).Nodup ∧
  (∀ p ∈ es.liveTimers, alookup es.pendingRenderTimers p.2 = some p.1) ∧
  (∀ q ∈ es.pendingRenderTimers, (q.2, q.1) ∈ es.liveTimers) ∧
  (∀ p ∈ es.liveTimers, p.1 < es.nextTimerId)

instance (es : EngineState) : Decidable (TimerInv es) := by
  unfold TimerInv
  infer_instance

/-- The formatter exactly as the claim words it: the select/radio clause is
applied to every select/radio value, and the em-dash-for-empty rule only to
"every other field type". Spec-facing definition, written for comparison with
the source's `formatFieldValue`. -/
def formatFieldValueClaim (f : Field) (value : JSValue) : JSValue :=
  if f.type == "checkbox" then
    if isEmptyValue value then .str "—"
    else if truthy value then .str "כן" else .str "לא"
  else if f.type == "select" || f.type == "radio" then
    match f.options with
    | none => value
    | some opts =>
      match opts.find? (fun o => strictEq (optionValue o) value) with
      | none => value
      | some (.ostr s) => .str s
      | some (.oobj v lbl) =>
        match lbl with
        | some s => .str s
        | none => v
  else if isEmptyValue value then .str "—"
  else .str (jsToString value)

/-- The amended claim's formatter: em-dash for an undefined/null/empty value
of every non-checkbox type (including select/radio), option-label resolution
only for non-empty select/radio values. Spec-facing definition, for
comparison with the source's `formatFieldValue`. -/
def formatFieldValueAmended (f : Field) (value : JSValue) : JSValue :=
  if f.type == "checkbox" then
    if isEmptyValue value then .str "—"
    else if truthy value then .str "כן" else .str "לא"
  else if isEmptyValue value then .str "—"
  else if f.type == "select" || f.type == "radio" then
    match f.options with
    | none => value
    | some opts =>
      match opts.find? (fun o => strictEq (optionValue o) value) with
      | none => value
      | some (.ostr s) => .str s
      | some (.oobj v lbl) =>
        match lbl with
        | some s => .str s
        | none => v
  else .str (jsToString value)

-- Concrete inputs used by counterexamples and witnesses

/-- A conditional field whose controller (`A`) appears later in the schema. -/
def exFieldB : Field := { name := "B", type := "text", showIf := some ⟨"A", .bool true⟩ }

/-- A conditional field depending on `B`, placed before `B` in the schema. -/
def exFieldC : Field := { name := "C", type := "text", showIf := some ⟨"B", .str "b"⟩ }

/-- A conditional field depending on `C`, placed before `C` in the schema. -/
def exFieldD : Field := { name := "D", type := "text", showIf := some ⟨"C", .str "c"⟩ }

/-- A schema whose flattened field order puts each dependent before its
controller: `D ← C ← B ← A`, declared as `[D, C, B, A]`. -/
def exChainSchema : Schema :=
  { stages := some
      [{ fields := [exFieldD, exFieldC, exFieldB, { name := "A", type := "checkbox" }] }] }

/-- The engine state after the user, on `exChainSchema`, checked `A` and
filled `B`, `C`, `D` (all four fields visible at that point). -/
def exChainState : EngineState :=
  { initialEngineState with
    state := [("A", .bool true), ("B", .str "b"), ("C", .str "c"), ("D", .str "d")] }

/-- A well-ordered two-field schema: controller `A` first, dependent `B` second. -/
def exOrderedSchema : Schema :=
  { stages := some
      [{ fields := [{ name := "A", type := "checkbox" }, exFieldB] }] }

/-- A two-stage schema: one data stage, then an optional summary stage. -/
def exSummarySchema : Schema :=
  { stages := some
      [{ label := some "data", fields := [{ name := "x", type := "text" }] },
       { label := some "sum", type := some "summary", optional := true }] }

/-- An engine state with one value in the state map and one pending debounce
timer (id 5 for field `x`), as left behind by typing into schema A. -/
def exStateWithTimer : EngineState :=
  { state := [("x", .str "old")]
    currentStage := 0
    furthestStageReached := 0
    pendingRenderTimers := [("x", 5)]
    liveTimers := [(5, "x")]
    nextTimerId := 6 }

/-- A select field with an empty options array. -/
def exSelectField : Field := { name := "s", type := "select", options := some [] }

-- Association-list lemmas

theorem alookup_aerase_self {α β : Type} [DecidableEq α] (l : List (α × β)) (k : α) :
    alookup (aerase l k) k = none := by
  induction l with
  | nil => rfl
  | cons p rest ih =>
    obtain ⟨k', v⟩ := p
    by_cases h : k' = k
    · simpa [aerase, h] using ih
    · simpa [aerase, alookup, h] using ih

theorem alookup_aerase_ne {α β : Type} [DecidableEq α] (l : List (α × β)) {k' k : α}
    (h : k' ≠ k) : alookup (aerase l k') k = alookup l k := by
  induction l with
  | nil => rfl
  | cons p rest ih =>
    obtain ⟨k0, v⟩ := p
    by_cases h0 : k0 = k'
    · subst h0
      simp [aerase, alookup, h, ih]
    · by_cases h1 : k0 = k
      · subst h1
        simp [aerase, alookup, h0, ih]
      · simp [aerase, alookup, h0, h1, ih]

theorem alookup_aset_self {α β : Type} [DecidableEq α] (l : List (α × β)) (k : α) (v : β) :
    alookup (aset l k v) k = some v := by
  simp [aset, alookup]

theorem alookup_aset_ne {α β : Type} [DecidableEq α] (l : List (α × β)) {k' k : α} (v : β)
    (h : k' ≠ k) : alookup (aset l k' v) k = alookup l k := by
  simp [aset, alookup, h, alookup_aerase_ne l h]

-- pruneStep lemmas

theorem pruneStep_lookup_ne {st : FormState} {f : Field} {k : String} (h : f.name ≠ k) :
    alookup (pruneStep st f) k = alookup st k := by
  unfold pruneStep
  split
  · split
    · exact alookup_aerase_ne st h
    · rfl
  · rfl

theorem pruneStep_lookup_or (st : FormState) (f : Field) (k : String) :
    alookup (pruneStep st f) k = alookup st k ∨ alookup (pruneStep st f) k = none := by
  by_cases h : f.name = k
  · unfold pruneStep
    split
    · split
      · right
        exact h ▸ alookup_aerase_self st f.name
      · left; rfl
    · left; rfl
  · left
    exact pruneStep_lookup_ne h

theorem pruneStep_lookup_none {st : FormState} {f : Field} {k : String}
    (h : alookup st k = none) : alookup (pruneStep st f) k = none := by
  by_cases hn : f.name = k
  · unfold pruneStep
    rw [hn, h]
    simp [h, hn]
  · rw [pruneStep_lookup_ne hn, h]

theorem pruneStep_changed {st : FormState} {f : Field} {k : String}
    (h : alookup (pruneStep st f) k ≠ alookup st k) :
    f.name = k ∧ f.showIf.isSome ∧ (alookup st k).isSome ∧
      shouldDisplayField f st = false ∧ alookup (pruneStep st f) k = none := by
  by_cases hn : f.name = k
  · by_cases hs : (f.showIf.isSome && (alookup st f.name).isSome) = true
    · by_cases hd : shouldDisplayField f st = true
      · exfalso
        apply h
        unfold pruneStep
        rw [if_pos hs, hd]
        simp
      · have hd' : shouldDisplayField f st = false := Bool.eq_false_iff.mpr hd
        have h2 := (Bool.and_eq_true _ _).mp hs
        have hstep : pruneStep st f = aerase st f.name := by
          unfold pruneStep
          rw [if_pos hs, hd']
          simp
        refine ⟨hn, h2.1, hn ▸ h2.2, hd', ?_⟩
        rw [hstep, hn]
        exact alookup_aerase_self st k
    · exfalso
      apply h
      unfold pruneStep
      rw [if_neg hs]
  · exact absurd (pruneStep_lookup_ne hn) h

-- Single-pass prune lemmas (the fold of `_pruneHiddenFields`)

theorem foldl_prune_none {l : List Field} {st : FormState} {k : String}
    (h : alookup st k = none) : alookup (l.foldl pruneStep st) k = none := by
  induction l generalizing st with
  | nil => exact h
  | cons f rest ih => exact ih (pruneStep_lookup_none h)

theorem foldl_prune_stable {l : List Field} (st : FormState) {k : String}
    (h : ∀ f ∈ l, f.name ≠ k) : alookup (l.foldl pruneStep st) k = alookup st k := by
  induction l generalizing st with
  | nil => rfl
  | cons f rest ih =>
    rw [List.foldl_cons, ih (pruneStep st f) (fun g hg => h g (List.mem_cons_of_mem f hg)),
      pruneStep_lookup_ne (h f (List.mem_cons_self f rest))]

theorem foldl_prune_or (l : List Field) (st : FormState) (k : String) :
    alookup (l.foldl pruneStep st) k = alookup st k ∨ alookup (l.foldl pruneStep st) k = none := by
  induction l generalizing st with
  | nil => left; rfl
  | cons f rest ih =>
    rw [List.foldl_cons]
    rcases pruneStep_lookup_or st f k with h | h
    · rw [← h]
      exact ih (pruneStep st f)
    · right
      exact foldl_prune_none h

theorem foldl_prune_noShowIf {l : List Field} {st : FormState} {k : String}
    (h : ∀ f ∈ l, f.name = k → f.showIf = none) :
    alookup (l.foldl pruneStep st) k = alookup st k := by
  induction l generalizing st with
  | nil => rfl
  | cons f rest ih =>
    rw [List.foldl_cons, ih (fun g hg => h g (List.mem_cons_of_mem f hg))]
    by_cases hn : f.name = k
    · have hs := h f (List.mem_cons_self f rest) hn
      unfold pruneStep
      simp [hs]
    · exact pruneStep_lookup_ne hn

theorem foldl_prune_changed {l : List Field} {st : FormState} {k : String}
    (h : alookup (l.foldl pruneStep st) k ≠ alookup st k) :
    ∃ l1 f c l2, l = l1 ++ f :: l2 ∧ f.name = k ∧ f.showIf = some c ∧
      evaluateCondition c (l1.foldl pruneStep st) = false ∧
      (alookup (l1.foldl pruneStep st) k).isSome := by
  induction l generalizing st with
  | nil => exact absurd rfl h
  | cons g rest ih =>
    rw [List.foldl_cons] at h
    by_cases hg : alookup (pruneStep st g) k = alookup st k
    · have h' : alookup (rest.foldl pruneStep (pruneStep st g)) k ≠ alookup (pruneStep st g) k := by
        rw [hg]; exact h
      obtain ⟨l1, f, c, l2, hdec, hname, hsome, hcond, hpresent⟩ := ih h'
      refine ⟨g :: l1, f, c, l2, by rw [hdec]; rfl, hname, hsome, ?_, ?_⟩
      · simpa [List.foldl_cons] using hcond
      · simpa [List.foldl_cons] using hpresent
    · obtain ⟨hname, hshow, hpresent, hdisp, _⟩ := pruneStep_changed hg
      obtain ⟨c, hc⟩ := Option.isSome_iff_exists.mp hshow
      refine ⟨[], g, c, rest, rfl, hname, hc, ?_, hname ▸ hpresent⟩
      simpa [shouldDisplayField, hc] using hdisp

theorem prune_pass_hidden_removed :
    ∀ (l : List Field) (st : FormState), ControllersFirst l →
      ∀ f ∈ l, shouldDisplayField f (l.foldl pruneStep st) = false →
        alookup (l.foldl pruneStep st) f.name = none := by
  intro l
  induction l with
  | nil =>
    intro st _ f hf
    cases hf
  | cons g rest ih =>
    intro st hcf f hf hfhidden
    obtain ⟨hself, hpw⟩ := hcf
    rw [List.pairwise_cons] at hpw
    obtain ⟨hg_rest, hpw_rest⟩ := hpw
    have hcf' : ControllersFirst rest :=
      ⟨fun x hx => hself x (List.mem_cons_of_mem g hx), hpw_rest⟩
    rw [List.foldl_cons] at hfhidden ⊢
    rcases List.mem_cons.mp hf with rfl | hf'
    · cases hshow : f.showIf with
      | none =>
        exfalso
        have hvis : shouldDisplayField f (rest.foldl pruneStep (pruneStep st f)) = true := by
          unfold shouldDisplayField
          rw [hshow]
        rw [hfhidden] at hvis
        cases hvis
      | some c =>
        by_cases hpres : (alookup st f.name).isSome = true
        · have hguard : (f.showIf.isSome && (alookup st f.name).isSome) = true := by
            rw [hshow]
            simpa using hpres
          by_cases hcond : shouldDisplayField f st = true
          · exfalso
            have hstep : pruneStep st f = st := by
              unfold pruneStep
              rw [if_pos hguard, hcond]
              simp
            rw [hstep] at hfhidden
            have hnofield : ∀ x ∈ rest, x.name ≠ c.field := fun x hx => hg_rest x hx c hshow
            have hstable := foldl_prune_stable st hnofield
            have hcond' : strictEq ((alookup st c.field).getD JSValue.undefined) c.equals = true := by
              simpa only [shouldDisplayField, hshow, evaluateCondition, getJS, lookupState]
                using hcond
            have hvis : shouldDisplayField f (rest.foldl pruneStep st) = true := by
              simp only [shouldDisplayField, hshow, evaluateCondition, getJS, lookupState, hstable]
              exact hcond'
            rw [hfhidden] at hvis
            cases hvis
          · have hd' : shouldDisplayField f st = false := Bool.eq_false_iff.mpr hcond
            have hstep : pruneStep st f = aerase st f.name := by
              unfold pruneStep
              rw [if_pos hguard, hd']
              simp
            apply foldl_prune_none
            rw [hstep]
            exact alookup_aerase_self st f.name
        · have halook : alookup st f.name = none := by
            cases hv : alookup st f.name with
            | none => rfl
            | some v => rw [hv] at hpres; simp at hpres
          exact foldl_prune_none (pruneStep_lookup_none halook)
    · exact ih (pruneStep st g) hcf' f hf' hfhidden

/-- Both branches of `_renderStage` run `_pruneHiddenFields` on entry, and
nothing else in it touches the state map. -/
theorem renderStage_state (s : Schema) (t : Int) (es : EngineState) :
    (renderStage s t es).state = pruneHiddenFields s es.state := by
  unfold renderStage
  split <;> rfl

/-- `_renderStage` never touches the debounce bookkeeping. -/
theorem renderStage_timers (s : Schema) (t : Int) (es : EngineState) :
    (renderStage s t es).pendingRenderTimers = es.pendingRenderTimers ∧
    (renderStage s t es).liveTimers = es.liveTimers ∧
    (renderStage s t es).nextTimerId = es.nextTimerId := by
  unfold renderStage
  split <;> exact ⟨rfl, rfl, rfl⟩

theorem pruneStep_nil (f : Field) : pruneStep [] f = ([] : FormState) := by
  unfold pruneStep
  simp [alookup]

theorem foldl_prune_nil (l : List Field) : l.foldl pruneStep ([] : FormState) = [] := by
  induction l with
  | nil => rfl
  | cons f rest ih =>
    rw [List.foldl_cons, pruneStep_nil, ih]

/-- Pruning an empty state map yields an empty state map. -/
theorem pruneHiddenFields_nil (s : Schema) : pruneHiddenFields s ([] : FormState) = [] :=
  foldl_prune_nil (getFields s none)

theorem getStageCount_pos (s : Schema) : 0 < getStageCount s := by
  unfold getStageCount isMultiStage
  cases h : s.stages with
  | none => simp
  | some l =>
    by_cases h0 : 0 < l.length
    · simp [h0]
    · simp [h0]

theorem isOptionalSummaryStage_false_of_not_multi {s : Schema}
    (h : isMultiStage s = false) : isOptionalSummaryStage s = false := by
  unfold isOptionalSummaryStage getSummaryStageIndex
  simp [h]

/-- After any `_renderStage`, the navigation invariant holds (only
`furthestStageReached ≥ 0` is needed from the pre-state, which every
reachable state satisfies since the field starts at 0 and is only ever
raised by `max` or reset to 0). -/
theorem renderStage_navInv (s : Schema) (t : Int) (es : EngineState)
    (h : 0 ≤ es.furthestStageReached) : NavInv s (renderStage s t es) := by
  have hcount := getStageCount_pos s
  unfold renderStage NavInv
  by_cases hm : isMultiStage s
  · simp only [hm, Bool.not_true, Bool.false_eq_true, if_false]
    split
    · refine ⟨by omega, by omega, by omega⟩
    · refine ⟨by omega, by omega, by omega⟩
  · simp only [Bool.not_eq_true] at hm
    simp only [hm, Bool.not_false, if_true]
    exact ⟨h, le_refl 0, by omega⟩

/-- Behaviour of `_renderStage(0)` on a freshly reset engine state: the state
map stays empty, the current stage is 0, the debounce bookkeeping is
untouched, and `furthestStageReached` is 0 except when the optional-summary
auto-unlock fires for stage 0 as last data stage. -/
theorem renderStage_zero_reset (s : Schema) (es : EngineState) :
    (renderStage s 0 { es with state := [], currentStage := 0, furthestStageReached := 0 }) =
      { es with
        state := []
        currentStage := 0
        furthestStageReached :=
          if isOptionalSummaryStage s && ((0 : Int) == getLastDataStageIndex s) then
            min 1 ((getStageCount s : Int) - 1)
          else 0 } := by
  have hcount := getStageCount_pos s
  unfold renderStage
  by_cases hm : isMultiStage s
  · simp only [hm, Bool.not_true, Bool.false_eq_true, if_false]
    rw [pruneHiddenFields_nil]
    have hcur : min (max (0 : Int) 0) ((getStageCount s : Int) - 1) = 0 := by omega
    simp only [hcur]
    split
    · simp only [EngineState.mk.injEq, true_and, and_true]
      omega
    · simp only [EngineState.mk.injEq, true_and, and_true]
      omega
  · simp only [Bool.not_eq_true] at hm
    simp only [hm, Bool.not_false, if_true]
    rw [pruneHiddenFields_nil]
    rw [isOptionalSummaryStage_false_of_not_multi hm]
    simp

-- Claim C1

/-- C1 (amended): loading a schema (`FormPreview.loadSchema`) or resetting
(`_resetForm`) empties the form-state map wholesale (so nothing is carried
over from the previous schema, even on colliding field names) and sets
`currentStage = 0`; `furthestStageReached` is reset to 0 and then recomputed
by the initial render, so it ends at 0 except when an optional summary stage
makes stage 0 the last data stage, where the auto-unlock raises it to
`min 1 (stageCount - 1)`; and the pending debounce timers are NOT cancelled:
the timer map and every live timer survive the load/reset unchanged, so a
debounce timer pending at that moment still fires afterwards. -/
theorem c1_load_reset_behavior (s : Schema) (es es' : EngineState)
    (h : loadSchema s es = some es') :
    (es'.state = [] ∧ es'.currentStage = 0 ∧
     es'.pendingRenderTimers = es.pendingRenderTimers ∧
     es'.liveTimers = es.liveTimers ∧
     es'.furthestStageReached =
       (if isOptionalSummaryStage s && ((0 : Int) == getLastDataStageIndex s) then
          min 1 ((getStageCount s : Int) - 1) else 0)) ∧
    ((resetForm s es).state = [] ∧ (resetForm s es).currentStage = 0 ∧
     (resetForm s es).pendingRenderTimers = es.pendingRenderTimers ∧
     (resetForm s es).liveTimers = es.liveTimers ∧
     (resetForm s es).furthestStageReached =
       (if isOptionalSummaryStage s && ((0 : Int) == getLastDataStageIndex s) then
          min 1 ((getStageCount s : Int) - 1) else 0)) := by
  unfold loadSchema at h
  by_cases hs : s.stages = none
  · rw [if_pos hs] at h
    cases h
  · rw [if_neg hs] at h
    injection h with h'
    constructor
    · rw [← h', renderStage_zero_reset]
      exact ⟨rfl, rfl, rfl, rfl, rfl⟩
    · unfold resetForm
      rw [renderStage_zero_reset]
      exact ⟨rfl, rfl, rfl, rfl, rfl⟩

/-- C1 fails as stated: loading schema B (one data stage followed by an
optional summary stage) over an engine state carrying a pending debounce
timer leaves `furthestStageReached = 1` (not 0, because of the summary
auto-unlock) and leaves the pending timer alive and still registered in the
timer map — neither `loadSchema` nor `_resetForm` cancels it, so a stale
debounced render can still fire against the replaced schema. -/
theorem c1_counterexample :
    (loadSchema exSummarySchema exStateWithTimer).map
        (fun es => (es.furthestStageReached, es.liveTimers, es.pendingRenderTimers)) =
      some (1, [(5, "x")], [("x", 5)]) ∧
    (resetForm exSummarySchema exStateWithTimer).furthestStageReached = 1 ∧
    (resetForm exSummarySchema exStateWithTimer).liveTimers = [(5, "x")] := by
  exact ⟨rfl, rfl, rfl⟩

/-- Witness instantiating `c1_load_reset_behavior` at a concrete load. -/
theorem c1_witness :
    (resetForm exSummarySchema exStateWithTimer).state = [] :=
  (c1_load_reset_behavior exSummarySchema exStateWithTimer
      (renderStage exSummarySchema 0
        { exStateWithTimer with state := [], currentStage := 0, furthestStageReached := 0 })
      (by rfl)).2.1

-- Claim C2

/-- C2 (amended): provided every conditional field occurs after all fields
named by its `showIf` controller (and no field is its own controller), then
after any `_renderStage` call — which prunes before rendering — every field
whose `showIf` evaluates false against the resulting state has no entry in
the form-state map. Without that ordering restriction the claim fails, see
the counterexample: the single prune pass iterates in schema order, so a
dependent placed before its controller can keep a stale value for one cycle. -/
theorem c2_hidden_pruned_of_controllersFirst (s : Schema) (t : Int) (es : EngineState)
    (hcf : ControllersFirst (getFields s none)) :
    ∀ f ∈ getFields s none,
      shouldDisplayField f ((renderStage s t es).state) = false →
        lookupState ((renderStage s t es).state) f.name = none := by
  rw [renderStage_state]
  unfold pruneHiddenFields lookupState
  exact prune_pass_hidden_removed (getFields s none) es.state hcf

/-- C2 fails as stated for a dependency chain against schema order: on the
schema declared `[D (showIf C="c"), C (showIf B="b"), B (showIf A=true), A]`
with all four values filled in, unchecking `A` through the engine's own
change handler runs two prune passes (handler, then render), which delete
`B` and then `C` — but `D`, inspected before `C` in each in-order pass, is
kept, and ends the render cycle hidden (its controller `C` is gone) while
still holding its stale value `"d"`. -/
theorem c2_counterexample :
    shouldDisplayField exFieldD
        ((handleFieldChange exChainSchema (some 0) "A" (.bool false) exChainState).state) =
      false ∧
    lookupState ((handleFieldChange exChainSchema (some 0) "A" (.bool false) exChainState).state)
        "D" =
      some (.str "d") := by
  exact ⟨rfl, rfl⟩

/-- Witness instantiating `c2_hidden_pruned_of_controllersFirst` on a
controller-first schema where the dependent is hidden. -/
theorem c2_witness :
    lookupState ((renderStage exOrderedSchema 0
        { initialEngineState with state := [("A", .bool false), ("B", .str "x")] }).state) "B" =
      none :=
  c2_hidden_pruned_of_controllersFirst exOrderedSchema 0
    { initialEngineState with state := [("A", .bool false), ("B", .str "x")] }
    (by decide) exFieldB (by decide) (by decide)

-- Claim C3

/-- C3: after any `_renderStage` call — hence after rendering any requested
index, `next`, `prev`, and stage-indicator jumps, which all funnel into it —
as well as after `_resetForm` and `FormPreview.loadSchema`, the navigation
invariant holds: `furthestStageReached ≥ currentStage` and `currentStage`
lies in `[0, stageCount - 1]` (an out-of-range request is clamped, never
stored). Only `furthestStageReached ≥ 0` is assumed of the pre-state, which
holds in every reachable state. -/
theorem c3_navigation_invariant (s : Schema) (t : Int) (es : EngineState)
    (h : 0 ≤ es.furthestStageReached) :
    NavInv s (renderStage s t es) ∧
    NavInv s (resetForm s es) ∧
    (∀ es', loadSchema s es = some es' → NavInv s es') := by
  refine ⟨renderStage_navInv s t es h, ?_, ?_⟩
  · unfold resetForm
    exact renderStage_navInv s 0 _ (le_refl 0)
  · intro es' hl
    unfold loadSchema at hl
    by_cases hs : s.stages = none
    · rw [if_pos hs] at hl
      cases hl
    · rw [if_neg hs] at hl
      injection hl with hl'
      exact hl' ▸ renderStage_navInv s 0 _ (le_refl 0)

/-- Witness instantiating `c3_navigation_invariant` at an out-of-range
render request. -/
theorem c3_witness : NavInv exSummarySchema (renderStage exSummarySchema 5 initialEngineState) :=
  (c3_navigation_invariant exSummarySchema 5 initialEngineState (by decide)).1

-- Claim C4

theorem aerase_sublist {α β : Type} [DecidableEq α] (l : List (α × β)) (k : α) :
    List.Sublist (aerase l k) l := by
  induction l with
  | nil => exact List.Sublist.refl []
  | cons p rest ih =>
    obtain ⟨k', v⟩ := p
    unfold aerase
    by_cases h : k' = k
    · rw [if_pos h]
      exact ih.cons _
    · rw [if_neg h]
      exact ih.cons₂ _

theorem mem_aerase {α β : Type} [DecidableEq α] {l : List (α × β)} {k : α} {q : α × β} :
    q ∈ aerase l k ↔ q ∈ l ∧ q.1 ≠ k := by
  induction l with
  | nil => simp [aerase]
  | cons p rest ih =>
    obtain ⟨k', v⟩ := p
    unfold aerase
    by_cases h : k' = k
    · subst h
      rw [if_pos rfl, ih, List.mem_cons]
      constructor
      · rintro ⟨hq, hne⟩
        exact ⟨Or.inr hq, hne⟩
      · rintro ⟨hq | hq, hne⟩
        · exfalso
          exact hne (by rw [hq])
        · exact ⟨hq, hne⟩
    · rw [if_neg h, List.mem_cons, List.mem_cons]
      constructor
      · rintro (hq | hq)
        · refine ⟨Or.inl hq, ?_⟩
          rw [hq]
          exact h
        · exact ⟨Or.inr (ih.mp hq).1, (ih.mp hq).2⟩
      · rintro ⟨hq | hq, hne⟩
        · exact Or.inl hq
        · exact Or.inr (ih.mpr ⟨hq, hne⟩)

theorem alookup_some_mem {α β : Type} [DecidableEq α] {l : List (α × β)} {k : α} {v : β}
    (h : alookup l k = some v) : (k, v) ∈ l := by
  induction l with
  | nil => cases h
  | cons p rest ih =>
    obtain ⟨k', v'⟩ := p
    unfold alookup at h
    by_cases hk : k' = k
    · rw [if_pos hk] at h
      injection h with h'
      subst hk
      subst h'
      exact List.mem_cons_self _ _
    · rw [if_neg hk] at h
      exact List.mem_cons_of_mem _ (ih h)

theorem nodup_fst_eq {α β : Type} {l : List (α × β)} (h : (l.map Prod.fst).Nodup)
    {x : α} {a b : β} (ha : (x, a) ∈ l) (hb : (x, b) ∈ l) : a = b := by
  induction l with
  | nil => cases ha
  | cons p rest ih =>
    rw [List.map_cons, List.nodup_cons] at h
    rcases List.mem_cons.mp ha with hae | hae <;> rcases List.mem_cons.mp hb with hbe | hbe
    · have hab := hae.trans hbe.symm
      exact ((Prod.mk.injEq _ _ _ _).mp hab).2
    · exfalso
      apply h.1
      have hx : x ∈ rest.map Prod.fst := List.mem_map_of_mem Prod.fst hbe
      rw [← hae]
      exact hx
    · exfalso
      apply h.1
      have hx : x ∈ rest.map Prod.fst := List.mem_map_of_mem Prod.fst hae
      rw [← hbe]
      exact hx
    · exact ih h.2 hae hbe

theorem mem_keys_isSome {α β : Type} [DecidableEq α] {l : List (α × β)} {k : α}
    (h : k ∈ l.map Prod.fst) : (alookup l k).isSome = true := by
  induction l with
  | nil => cases h
  | cons p rest ih =>
    obtain ⟨k', v⟩ := p
    unfold alookup
    by_cases hk : k' = k
    · rw [if_pos hk]
      rfl
    · rw [if_neg hk]
      rcases List.mem_cons.mp h with he | he
      · exact absurd he.symm hk
      · exact ih he

theorem clearPendingRender_nextTimerId (f : String) (es : EngineState) :
    (clearPendingRender f es).nextTimerId = es.nextTimerId := by
  unfold clearPendingRender
  cases alookup es.pendingRenderTimers f <;> rfl

theorem clearPendingRender_lookup_none (f : String) (es : EngineState) :
    alookup (clearPendingRender f es).pendingRenderTimers f = none := by
  unfold clearPendingRender
  cases hv : alookup es.pendingRenderTimers f with
  | none => exact hv
  | some tid => exact alookup_aerase_self es.pendingRenderTimers f

theorem timerInv_clearPendingRender (f : String) (es : EngineState) (h : TimerInv es) :
    TimerInv (clearPendingRender f es) := by
  obtain ⟨hmk, hlk, hlm, hml, hbnd⟩ := h
  unfold clearPendingRender
  cases hv : alookup es.pendingRenderTimers f with
  | none => exact ⟨hmk, hlk, hlm, hml, hbnd⟩
  | some tid =>
    refine ⟨?_, ?_, ?_, ?_, ?_⟩
    · exact List.Nodup.sublist ((aerase_sublist _ _).map Prod.fst) hmk
    · exact List.Nodup.sublist ((List.filter_sublist _).map Prod.fst) hlk
    · intro p hp
      rw [List.mem_filter] at hp
      obtain ⟨hpl, hpd⟩ := hp
      have hpne : p.1 ≠ tid := by simpa using hpd
      by_cases hpf : p.2 = f
      · exfalso
        have h1 : alookup es.pendingRenderTimers f = some p.1 := hpf ▸ hlm p hpl
        rw [hv] at h1
        injection h1 with h2
        exact hpne h2.symm
      · rw [alookup_aerase_ne es.pendingRenderTimers (fun hh => hpf hh.symm)]
        exact hlm p hpl
    · intro q hq
      rw [mem_aerase] at hq
      obtain ⟨hqm, hqne⟩ := hq
      have hlive := hml q hqm
      rw [List.mem_filter]
      refine ⟨hlive, ?_⟩
      have hq2 : q.2 ≠ tid := by
        intro hq2
        have hfm : (f, tid) ∈ es.pendingRenderTimers := alookup_some_mem hv
        have hftid : (tid, f) ∈ es.liveTimers := hml (f, tid) hfm
        have : (q.2, q.1) = (tid, q.1) := by rw [hq2]
        rw [this] at hlive
        exact hqne (nodup_fst_eq hlk hlive hftid)
      simpa using hq2
    · intro p hp
      exact hbnd p (List.mem_filter.mp hp).1



theorem clearPendingRender_no_live (f : String) (es : EngineState) (h : TimerInv es) :
    ∀ tid, (tid, f) ∉ (clearPendingRender f es).liveTimers := by
  intro tid hmem
  obtain ⟨hmk, hlk, hlm, hml, hbnd⟩ := h
  unfold clearPendingRender at hmem
  cases hv : alookup es.pendingRenderTimers f with
  | none =>
    rw [hv] at hmem
    have := hlm (tid, f) hmem
    rw [hv] at this
    cases this
  | some tid' =>
    rw [hv] at hmem
    rw [List.mem_filter] at hmem
    obtain ⟨hl, hne⟩ := hmem
    have hlook := hlm (tid, f) hl
    rw [hv] at hlook
    injection hlook with he
    simp at hne
    exact hne he.symm

theorem timerInv_scheduleRender (f : String) (es : EngineState) (h : TimerInv es) :
    TimerInv (scheduleRender f es) := by
  have h1 := timerInv_clearPendingRender f es h
  have hnone := clearPendingRender_lookup_none f es
  have hnolive := clearPendingRender_no_live f es h
  obtain ⟨hmk, hlk, hlm, hml, hbnd⟩ := h1
  unfold scheduleRender
  dsimp only
  refine ⟨?_, ?_, ?_, ?_, ?_⟩
  · unfold aset
    rw [List.map_cons, List.nodup_cons]
    constructor
    · intro hmemk
      have := mem_keys_isSome hmemk
      rw [alookup_aerase_self] at this
      cases this
    · exact List.Nodup.sublist ((aerase_sublist _ _).map Prod.fst) hmk
  · rw [List.map_cons, List.nodup_cons]
    constructor
    · intro hmemid
      rw [List.mem_map] at hmemid
      obtain ⟨p, hp, hpe⟩ := hmemid
      have := hbnd p hp
      omega
    · exact hlk
  · intro p hp
    rcases List.mem_cons.mp hp with he | he
    · rw [he]
      exact alookup_aset_self _ _ _
    · by_cases hpf : p.2 = f
      · exfalso
        have := hlm p he
        rw [hpf, hnone] at this
        cases this
      · rw [alookup_aset_ne _ _ (fun hh => hpf hh.symm)]
        exact hlm p he
  · intro q hq
    unfold aset at hq
    rcases List.mem_cons.mp hq with he | he
    · rw [he]
      exact List.mem_cons_self _ _
    · rw [mem_aerase] at he
      exact List.mem_cons_of_mem _ (hml q he.1)
  · intro p hp
    rcases List.mem_cons.mp hp with he | he
    · rw [he]
      show (clearPendingRender f es).nextTimerId < (clearPendingRender f es).nextTimerId + 1
      omega
    · have := hbnd p he
      show p.1 < (clearPendingRender f es).nextTimerId + 1
      omega

theorem handleFieldChange_timers (s : Schema) (si : Option Int) (f : String) (v : JSValue)
    (es : EngineState) :
    (handleFieldChange s si f v es).pendingRenderTimers =
        (clearPendingRender f es).pendingRenderTimers ∧
    (handleFieldChange s si f v es).liveTimers = (clearPendingRender f es).liveTimers ∧
    (handleFieldChange s si f v es).nextTimerId = (clearPendingRender f es).nextTimerId := by
  unfold handleFieldChange
  exact renderStage_timers _ _ _

theorem timerInv_of_timer_fields_eq {es es' : EngineState}
    (hp : es'.pendingRenderTimers = es.pendingRenderTimers)
    (hl : es'.liveTimers = es.liveTimers)
    (hn : es'.nextTimerId = es.nextTimerId)
    (h : TimerInv es) : TimerInv es' := by
  unfold TimerInv
  rw [hp, hl, hn]
  exact h

theorem timerInv_fireTimer (s : Schema) (tid : Nat) (f : String) (t : Int) (es : EngineState)
    (h : TimerInv es) (hl : (tid, f) ∈ es.liveTimers) : TimerInv (fireTimer s tid f t es) := by
  obtain ⟨hmk, hlk, hlm, hml, hbnd⟩ := h
  unfold fireTimer
  apply timerInv_of_timer_fields_eq (renderStage_timers _ _ _).1
    (renderStage_timers _ _ _).2.1 (renderStage_timers _ _ _).2.2
  have hlook : alookup es.pendingRenderTimers f = some tid := hlm (tid, f) hl
  refine ⟨?_, ?_, ?_, ?_, ?_⟩
  · exact List.Nodup.sublist ((aerase_sublist _ _).map Prod.fst) hmk
  · exact List.Nodup.sublist ((List.filter_sublist _).map Prod.fst) hlk
  · intro p hp
    rw [List.mem_filter] at hp
    obtain ⟨hpl, hpd⟩ := hp
    have hpne : p.1 ≠ tid := by simpa using hpd
    by_cases hpf : p.2 = f
    · exfalso
      have h1 : alookup es.pendingRenderTimers f = some p.1 := hpf ▸ hlm p hpl
      rw [hlook] at h1
      injection h1 with h2
      exact hpne h2.symm
    · rw [alookup_aerase_ne es.pendingRenderTimers (fun hh => hpf hh.symm)]
      exact hlm p hpl
  · intro q hq
    rw [mem_aerase] at hq
    obtain ⟨hqm, hqne⟩ := hq
    have hlive := hml q hqm
    rw [List.mem_filter]
    refine ⟨hlive, ?_⟩
    have hq2 : q.2 ≠ tid := by
      intro hq2
      have : (q.2, q.1) = (tid, q.1) := by rw [hq2]
      rw [this] at hlive
      exact hqne (nodup_fst_eq hlk hlive hl)
    simpa using hq2
  · intro p hp
    exact hbnd p (List.mem_filter.mp hp).1



/-- C4: under the timer-bookkeeping invariant (which holds initially and is
preserved by scheduling, immediate changes, and firing): every field has at
most one pending debounced-render timer at a time; `_scheduleRender` cancels
the field's existing timer — the old timer id is no longer live — before
registering the fresh one; and `_handleFieldChange` cancels the field's
pending timer outright, so after an immediate change no debounced render
for that field is live and none can fire later. -/
theorem c4_debounce_timer_discipline (s : Schema) (si : Option Int) (t : Int)
    (f g : String) (v : JSValue) (id id' oldId : Nat) (es : EngineState)
    (h : TimerInv es) :
    TimerInv (scheduleRender f es) ∧
    TimerInv (handleFieldChange s si f v es) ∧
    ((id, g) ∈ es.liveTimers → (id', g) ∈ es.liveTimers → id = id') ∧
    ((id, f) ∉ (handleFieldChange s si f v es).liveTimers) ∧
    (alookup es.pendingRenderTimers f = some oldId →
      (oldId, f) ∉ (scheduleRender f es).liveTimers ∧
      alookup (scheduleRender f es).pendingRenderTimers f = some es.nextTimerId) ∧
    ((id, g) ∈ es.liveTimers → TimerInv (fireTimer s id g t es)) := by
  have hchange := handleFieldChange_timers s si f v es
  refine ⟨timerInv_scheduleRender f es h, ?_, ?_, ?_, ?_, fun hl => timerInv_fireTimer s id g t es h hl⟩
  · exact timerInv_of_timer_fields_eq hchange.1 hchange.2.1 hchange.2.2
      (timerInv_clearPendingRender f es h)
  · intro h1 h2
    have e1 := h.2.2.1 (id, g) h1
    have e2 := h.2.2.1 (id', g) h2
    rw [e1] at e2
    injection e2
  · rw [hchange.2.1]
    exact clearPendingRender_no_live f es h id
  · intro hold
    have hbound : oldId < es.nextTimerId :=
      h.2.2.2.2 (oldId, f) (h.2.2.2.1 (f, oldId) (alookup_some_mem hold))
    constructor
    · intro hmem
      unfold scheduleRender at hmem
      rcases List.mem_cons.mp hmem with he | he
      · have : oldId = (clearPendingRender f es).nextTimerId :=
          ((Prod.mk.injEq _ _ _ _).mp he).1
        rw [clearPendingRender_nextTimerId] at this
        omega
      · exact clearPendingRender_no_live f es h oldId he
    · unfold scheduleRender
      dsimp only
      rw [alookup_aset_self, clearPendingRender_nextTimerId]

/-- Witness instantiating `c4_debounce_timer_discipline` on the state with
one pending timer. -/
theorem c4_witness : TimerInv (scheduleRender "x" exStateWithTimer) :=
  (c4_debounce_timer_discipline exSummarySchema none 0 "x" "x" (.str "q") 5 5 5
    exStateWithTimer (by decide)).1

-- Claim C5

theorem payload_fold_lookup (l : List Field) (st : FormState) (p : FormState) (n : String) :
    alookup (l.foldl (payloadStep st) p) n =
      if l.any (fun f => f.name == n && (alookup st f.name).isSome) then some (getJS st n)
      else alookup p n := by
  induction l generalizing p with
  | nil => simp
  | cons f rest ih =>
    rw [List.foldl_cons, ih]
    unfold payloadStep
    by_cases hn : f.name = n
    · have hsn : alookup st f.name = alookup st n := by rw [hn]
      by_cases hsome : (alookup st f.name).isSome = true
      · have hsome' : (alookup st n).isSome = true := hsn ▸ hsome
        by_cases hr : rest.any (fun f => f.name == n && (alookup st f.name).isSome) = true
        · simp [List.any_cons, hn, hsome, hr]
        · simp [List.any_cons, hn, hsome', hr, alookup_aset_self]
      · have hsome' : ¬(alookup st n).isSome = true := hsn ▸ hsome
        by_cases hr : rest.any (fun f => f.name == n && (alookup st f.name).isSome) = true
        · simp [List.any_cons, hn, hsome, hsome', hr]
        · simp [List.any_cons, hn, hsome, hsome', hr]
    · have hbeq : (f.name == n) = false := by simp [hn]
      by_cases hsome : (alookup st f.name).isSome = true
      · by_cases hr : rest.any (fun f => f.name == n && (alookup st f.name).isSome) = true
        · simp [List.any_cons, hbeq, hsome, hr]
        · simp [List.any_cons, hbeq, hsome, hr, alookup_aset_ne p (getJS st f.name) hn]
      · by_cases hr : rest.any (fun f => f.name == n && (alookup st f.name).isSome) = true
        · simp [List.any_cons, hbeq, hsome, hr]
        · simp [List.any_cons, hbeq, hsome, hr]

theorem any_name_and_isSome (l : List Field) (st : FormState) (n : String) :
    l.any (fun f => f.name == n && (alookup st f.name).isSome) =
      (l.any (fun f => f.name == n) && (alookup st n).isSome) := by
  induction l with
  | nil => simp
  | cons f rest ih =>
    by_cases hn : f.name = n
    · subst hn
      cases hsome : (alookup st f.name).isSome <;>
        simp [List.any_cons, hsome, ih]
    · have hbeq : (f.name == n) = false := by simp [hn]
      simp [List.any_cons, hbeq, ih]

/-- C5: the submission payload maps a name `n` to a value exactly when some
currently visible field (no `showIf`, or `showIf` true against the current
state) that is not a plain-text marker is named `n` and the form-state map
has an own entry for `n` — and then the payload value is the state value.
In particular a field hidden by its `showIf` never contributes. -/
theorem c5_submission_payload_characterization (s : Schema) (st : FormState) (n : String) :
    lookupState (buildSubmissionPayload s st) n =
      if (getVisibleFields s st none).any (fun f => f.name == n) && (alookup st n).isSome
      then lookupState st n else none := by
  unfold buildSubmissionPayload lookupState
  rw [payload_fold_lookup, any_name_and_isSome]
  by_cases h : ((getVisibleFields s st none).any (fun f => f.name == n) && (alookup st n).isSome) = true
  · rw [if_pos h, if_pos h]
    have hsome : (alookup st n).isSome = true := (Bool.and_eq_true _ _).mp h |>.2
    unfold getJS lookupState
    cases hv : alookup st n with
    | none => rw [hv] at hsome; cases hsome
    | some v => simp [hv]
  · rw [if_neg h, if_neg h]
    rfl

-- Claim C6

/-- C6: `shouldDisplayField(field, state)` is true iff the field has no
`showIf` or `state[showIf.field] === showIf.equals` under strict equality:
no coercion, so a string state entry (e.g. `"true"`) never satisfies a
boolean `equals` condition (e.g. `true`). -/
theorem c6_shouldDisplay_strict_equality (f : Field) (st : FormState) :
    (shouldDisplayField f st = true ↔
      (f.showIf = none ∨ ∃ c, f.showIf = some c ∧ strictEq (getJS st c.field) c.equals = true)) ∧
    (∀ s b, strictEq (.str s) (.bool b) = false) ∧
    strictEq (.str "true") (.bool true) = false := by
  refine ⟨?_, fun s b => rfl, rfl⟩
  cases hc : f.showIf with
  | none => simp [shouldDisplayField, hc]
  | some c => simp [shouldDisplayField, hc, evaluateCondition]

-- Claim C7

theorem renderStage_furthest_bump (s : Schema) (t : Int) (es : EngineState)
    (hm : isMultiStage s = true)
    (hopt : isOptionalSummaryStage s = true)
    (hteq : t = getLastDataStageIndex s)
    (ht0 : 0 ≤ t) (htlast : t ≤ (getStageCount s : Int) - 1) :
    min (t + 1) ((getStageCount s : Int) - 1) ≤ (renderStage s t es).furthestStageReached := by
  unfold renderStage
  simp only [hm, Bool.not_true, Bool.false_eq_true, if_false]
  have hcur : min (max t 0) ((getStageCount s : Int) - 1) = t := by omega
  simp only [hcur]
  have hbeq : (t == getLastDataStageIndex s) = true := beq_iff_eq.mpr hteq
  simp only [hopt, hbeq, Bool.and_self, if_true]
  omega

/-- C7: for a multi-stage schema whose first summary stage sits at index
`k ≥ 1`, is marked optional, and is the final stage (so it immediately
follows the last data stage, index `k - 1`): rendering the last data stage
advances `furthestStageReached` to at least `k`, unlocking the summary
without a visit, and the navigation controls on that data stage show the
submit button. -/
theorem c7_optional_summary_unlock (s : Schema) (k : Nat) (es : EngineState)
    (hsum : getSummaryStageIndex s = (k : Int))
    (hopt : isOptionalSummaryStage s = true)
    (hk : 1 ≤ k)
    (hlast : (k : Int) = (getStageCount s : Int) - 1) :
    (k : Int) ≤ (renderStage s (getLastDataStageIndex s) es).furthestStageReached ∧
    (updateNavigationControls s (getLastDataStageIndex s)).submit = true := by
  have hm : isMultiStage s = true := by
    by_cases hm' : isMultiStage s = true
    · exact hm'
    · exfalso
      have hfalse : isMultiStage s = false := Bool.eq_false_iff.mpr hm'
      unfold getSummaryStageIndex at hsum
      rw [hfalse] at hsum
      simp at hsum
  have hkne : ((k : Int) == -1) = false := by
    rw [beq_eq_false_iff_ne]
    omega
  have hld : getLastDataStageIndex s = (k : Int) - 1 := by
    unfold getLastDataStageIndex
    simp only [hm, Bool.not_true, Bool.false_eq_true, if_false, hsum, hkne]
    omega
  constructor
  · have hb := renderStage_furthest_bump s (getLastDataStageIndex s) es hm hopt rfl
      (by omega) (by omega)
    have hmin : min ((getLastDataStageIndex s) + 1) ((getStageCount s : Int) - 1) = (k : Int) := by
      rw [hld]
      omega
    rw [hmin] at hb
    exact hb
  · unfold updateNavigationControls
    simp only [hm, Bool.not_true, Bool.false_eq_true, if_false, hsum, hld]
    have h1 : ((k : Int) != -1) = true := by
      simp only [bne, hkne, Bool.not_false]
    have h2 : (((k : Int) - 1) == (k : Int)) = false := beq_eq_false_iff_ne.mpr (by omega)
    have h3 : (((k : Int) - 1) == ((k : Int) - 1)) = true := beq_iff_eq.mpr rfl
    simp only [h1, h2, h3, Bool.true_and, Bool.and_false, Bool.false_eq_true, if_false,
      Bool.and_true, if_true]
    exact hopt

/-- Witness instantiating `c7_optional_summary_unlock` on the two-stage
schema with an optional summary stage at index 1. -/
theorem c7_witness :
    ((1 : Nat) : Int) ≤ (renderStage exSummarySchema (getLastDataStageIndex exSummarySchema)
        initialEngineState).furthestStageReached ∧
    (updateNavigationControls exSummarySchema
        (getLastDataStageIndex exSummarySchema)).submit = true :=
  c7_optional_summary_unlock exSummarySchema 1 initialEngineState (by decide) (by decide)
    (by decide) (by decide)

-- Claim C8

theorem strictEq_eq_true_iff (a b : JSValue) : strictEq a b = true ↔ a = b := by
  cases a <;> cases b <;> simp [strictEq]

theorem resolveOptionLabel_not_nullish (f : Field) (v : JSValue)
    (h : isEmptyValue v = false) : isNullish (resolveOptionLabel f v) = false := by
  have hnv : isNullish v = false := by
    unfold isEmptyValue at h
    exact (Bool.or_eq_false_iff.mp h).1
  cases ho : f.options with
  | none =>
    simp only [resolveOptionLabel, ho]
    exact hnv
  | some opts =>
    cases hf : opts.find? (fun o => strictEq (optionValue o) v) with
    | none =>
      simp only [resolveOptionLabel, ho, hf]
      exact hnv
    | some o =>
      cases o with
      | ostr s => simp only [resolveOptionLabel, ho, hf, isNullish]
      | oobj w lbl =>
        cases lbl with
        | some s => simp only [resolveOptionLabel, ho, hf, isNullish]
        | none =>
          have hP := List.find?_some hf
          simp only [optionValue] at hP
          have hw : w = v := (strictEq_eq_true_iff w v).mp hP
          simp only [resolveOptionLabel, ho, hf, hw]
          exact hnv

/-- C8 (amended): `formatFieldValue` returns, for checkbox fields, the
localized yes token for truthy values, the no token for falsy non-empty
values, and the em-dash for undefined/null/empty; for every non-checkbox
field type — select and radio included — the em-dash when the value is
undefined, null or the empty string; for select/radio fields with a
non-empty value, the matching option's label (an option's value when it has
no label, the raw value when no option matches); and for every other type
with a non-empty value, the string form of the value. -/
theorem c8_formatFieldValue_amended (f : Field) (v : JSValue) :
    formatFieldValue f v = formatFieldValueAmended f v := by
  unfold formatFieldValue formatFieldValueAmended
  by_cases hcb : (f.type == "checkbox") = true
  · simp [hcb]
  · by_cases hemp : isEmptyValue v = true
    · simp [hcb, hemp]
    · by_cases hsel : (f.type == "select" || f.type == "radio") = true
      · have hemp' : isEmptyValue v = false := Bool.eq_false_iff.mpr hemp
        have hnn := resolveOptionLabel_not_nullish f v hemp'
        simp only [hcb, hemp, hsel, Bool.false_eq_true, if_false, if_true, hnn]
        unfold resolveOptionLabel
        rfl
      · simp [hcb, hemp, hsel]

/-- C8 fails as stated: the claim's select/radio clause prescribes option
resolution (here: fallback to the raw value, as the options array is empty)
for every stored value, but for the empty string the source returns the
em-dash placeholder — the emptiness check runs before the select/radio
branch. -/
theorem c8_counterexample :
    formatFieldValue exSelectField (.str "") = .str "—" ∧
    formatFieldValueClaim exSelectField (.str "") = .str "" ∧
    formatFieldValue exSelectField (.str "") ≠ formatFieldValueClaim exSelectField (.str "") := by
  refine ⟨rfl, rfl, ?_⟩
  decide

-- Claim C9

/-- C9: for a multi-stage schema and any integer stage index outside
`[0, stages.length - 1]` (negative included), `getFields` returns the empty
list rather than failing, and `getVisibleFields` at that index is empty too:
stage indexing is total at this interface. -/
theorem c9_out_of_range_stage_empty (s : Schema) (st : FormState) (i : Int)
    (hm : isMultiStage s = true)
    (hout : i < 0 ∨ ((s.stages.getD []).length : Int) ≤ i) :
    getFields s (some i) = [] ∧ getVisibleFields s st (some i) = [] := by
  have hg : getFields s (some i) = [] := by
    unfold getFields
    rw [hm]
    have hnone : listGetInt (s.stages.getD []) i = none := by
      unfold listGetInt
      rcases hout with h | h
      · rw [if_neg (by omega)]
      · rw [if_pos (by omega)]
        exact List.get?_eq_none.mpr (by omega)
    simp [hnone]
  refine ⟨hg, ?_⟩
  unfold getVisibleFields
  rw [hg]
  rfl

/-- Witness instantiating `c9_out_of_range_stage_empty` at index -2. -/
theorem c9_witness :
    getFields exSummarySchema (some (-2)) = [] ∧
    getVisibleFields exSummarySchema [] (some (-2)) = [] :=
  c9_out_of_range_stage_empty exSummarySchema [] (-2) (by decide) (Or.inl (by decide))

-- Claim C10

/-- C10: the prune step only ever deletes entries (it never rewrites one);
an entry whose key is named by no schema field, or only by fields without a
`showIf` — which covers unconditional fields, and keys foreign to the active
schema — is left exactly as it was; and any entry it does delete belongs to
a schema field with a `showIf` whose condition evaluated false, with the
entry still present, at that field's point in the in-order pass. Visible
conditional fields are untouched as a consequence: if no point of the pass
evaluates their condition false, the third conjunct's contrapositive with
the first keeps their entry intact. -/
theorem c10_prune_frame (s : Schema) (st : FormState) (k : String) :
    (lookupState (pruneHiddenFields s st) k = lookupState st k ∨
     lookupState (pruneHiddenFields s st) k = none) ∧
    ((∀ f ∈ getFields s none, f.name = k → f.showIf = none) →
      lookupState (pruneHiddenFields s st) k = lookupState st k) ∧
    (lookupState (pruneHiddenFields s st) k ≠ lookupState st k →
      ∃ l1 f c l2, getFields s none = l1 ++ f :: l2 ∧ f.name = k ∧ f.showIf = some c ∧
        evaluateCondition c (l1.foldl pruneStep st) = false ∧
        (alookup (l1.foldl pruneStep st) k).isSome = true) := by
  unfold pruneHiddenFields lookupState
  exact ⟨foldl_prune_or (getFields s none) st k,
    fun h => foldl_prune_noShowIf h,
    fun h => foldl_prune_changed h⟩

/-- Witness instantiating `c10_prune_frame`: the entry of the unconditional
field `A` survives the prune unchanged. -/
theorem c10_witness :
    lookupState (pruneHiddenFields exOrderedSchema [("A", .bool true)]) "A" =
      lookupState [("A", .bool true)] "A" :=
  (c10_prune_frame exOrderedSchema [("A", .bool true)] "A").2.1 (by decide)

end FormBuilder
